import Mathlib

/-!
# n-body simulation (`src/main.cpp`): shallow embedding and verified properties

The C++ program simulates five bodies (the sun and the four outer planets).
`double` is modelled by an arbitrary field `α` together with a square-root
function `sqrt : α → α` passed explicitly, so that every definition is
computable (for instance at `α = ℚ`); the theorems instantiate `α = ℝ` and
`sqrt = Real.sqrt`.

`std::array<T, N>` is modelled by `Fin N → T`.  Loop variables that are guarded
by `i != bodies.size()` range over `Fin 5`; the free-running counter `k` of
`advance` is a natural number and every buffer access through it is checked
(`array_get`, `array_set`), an out-of-bounds access making the operation
return `none`.
-/

namespace NBody

/-! ## Vectors (`struct vec3` and its operators) -/

/-- The `struct vec3` of the source: three `double` components. -/
@[ext]
structure vec3 (α : Type) where
  x : α
  y : α
  z : α

namespace vec3

variable {α : Type} [Field α]

/-- The default constructor `vec3()`: all components are `0.`. -/
def zero : vec3 α := ⟨0, 0, 0⟩

/-- The source's `operator+(vec3 a, vec3 b)`. -/
def add (a b : vec3 α) : vec3 α := ⟨a.x + b.x, a.y + b.y, a.z + b.z⟩

/-- The source's `operator-(vec3 a, vec3 b)`. -/
def sub (a b : vec3 α) : vec3 α := ⟨a.x - b.x, a.y - b.y, a.z - b.z⟩

/-- The source's `operator*(vec3 a, double b)`. -/
def mul (a : vec3 α) (b : α) : vec3 α := ⟨a.x * b, a.y * b, a.z * b⟩

/-- The source's `operator+=(vec3& a, vec3 b)`; the result is the new value of `a`. -/
def add_assign (a b : vec3 α) : vec3 α := ⟨a.x + b.x, a.y + b.y, a.z + b.z⟩

/-- The source's `operator-=(vec3& a, vec3 b)`; the result is the new value of `a`. -/
def sub_assign (a b : vec3 α) : vec3 α := ⟨a.x - b.x, a.y - b.y, a.z - b.z⟩

end vec3

section Code

variable {α : Type} [Field α]

/-- The source's `sum_squares`. -/
def sum_squares (v : vec3 α) : α := v.x * v.x + v.y * v.y + v.z * v.z

/-- The source's `magnitude`; `sqrt` stands for `std::sqrt`. -/
def magnitude (sqrt : α → α) (v : vec3 α) (dt : α) : α :=
  let sum := sum_squares v
  dt / (sum * sqrt sum)

/-- The constant `BODIES_COUNT`. -/
abbrev BODIES_COUNT : Nat := 5

/-- The constant `INTERACTIONS`. -/
abbrev INTERACTIONS : Nat := BODIES_COUNT * (BODIES_COUNT - 1) / 2

/-- The constant `PI`. -/
def PI : α := 3.141592653589793

/-- The constant `SOLAR_MASS`. -/
def SOLAR_MASS : α := 4 * PI * PI

/-- The constant `DAYS_PER_YEAR`. -/
def DAYS_PER_YEAR : α := 365.24

/-- The `struct body` of the source. -/
@[ext]
structure body (α : Type) where
  position : vec3 α
  velocity : vec3 α
  mass : α

/-- The member function `body::offset_momentum`; the result is the new value of `*this`. -/
def body.offset_momentum (b : body α) (p : vec3 α) : body α :=
  { b with velocity := p.mul (-1 / SOLAR_MASS) }

/-- The constant `jupiter`. -/
def jupiter : body α where
  position := ⟨4.84143144246472090e+00, -1.16032004402742839e+00, -1.03622044471123109e-01⟩
  velocity := ⟨1.66007664274403694e-03 * DAYS_PER_YEAR, 7.69901118419740425e-03 * DAYS_PER_YEAR,
    -6.90460016972063023e-05 * DAYS_PER_YEAR⟩
  mass := 9.54791938424326609e-04 * SOLAR_MASS

/-- The constant `saturn`. -/
def saturn : body α where
  position := ⟨8.34336671824457987e+00, 4.12479856412430479e+00, -4.03523417114321381e-01⟩
  velocity := ⟨-2.76742510726862411e-03 * DAYS_PER_YEAR, 4.99852801234917238e-03 * DAYS_PER_YEAR,
    2.30417297573763929e-05 * DAYS_PER_YEAR⟩
  mass := 2.85885980666130812e-04 * SOLAR_MASS

/-- The constant `uranus`. -/
def uranus : body α where
  position := ⟨1.28943695621391310e+01, -1.51111514016986312e+01, -2.23307578892655734e-01⟩
  velocity := ⟨2.96460137564761618e-03 * DAYS_PER_YEAR, 2.37847173959480950e-03 * DAYS_PER_YEAR,
    -2.96589568540237556e-05 * DAYS_PER_YEAR⟩
  mass := 4.36624404335156298e-05 * SOLAR_MASS

/-- The constant `neptune`. -/
def neptune : body α where
  position := ⟨1.53796971148509165e+01, -2.59193146099879641e+01, 1.79258772950371181e-01⟩
  velocity := ⟨2.68067772490389322e-03 * DAYS_PER_YEAR, 1.62824170038242295e-03 * DAYS_PER_YEAR,
    -9.51592254519715870e-05 * DAYS_PER_YEAR⟩
  mass := 5.15138902046611451e-05 * SOLAR_MASS

/-- The constant `sun`: only `mass` is designated, so `position` and `velocity` are
value-initialised by `vec3()`. -/
def sun : body α where
  position := vec3.zero
  velocity := vec3.zero
  mass := SOLAR_MASS

/-! ## Arrays and loops -/

/-- The indices visited by `for (size_t j = lo; j != n; ++j)` when `lo ≤ n`, in order. -/
def index_range (n lo : Nat) : List (Fin n) := (List.finRange n).drop lo

/-- Checked read `a[k]` of a `std::array` of `n` elements. -/
def array_get {β : Type} {n : Nat} (a : Fin n → β) (k : Nat) : Option β :=
  if h : k < n then some (a ⟨k, h⟩) else none

/-- Checked write `a[k] = v` of a `std::array` of `n` elements. -/
def array_set {β : Type} {n : Nat} (a : Fin n → β) (k : Nat) (v : β) : Option (Fin n → β) :=
  if h : k < n then some (Function.update a ⟨k, h⟩ v) else none

/-! ## The class `nbody_system` -/

/-- The data member `std::array<body, 5> bodies` of `class nbody_system`. -/
@[ext]
structure nbody_system (α : Type) where
  bodies : Fin 5 → body α

/-- The member initialiser `bodies{{sun, jupiter, saturn, uranus, neptune}}`. -/
def initial_bodies : Fin 5 → body α
  | 0 => sun
  | 1 => jupiter
  | 2 => saturn
  | 3 => uranus
  | 4 => neptune

/-- The constructor `nbody_system::nbody_system()`. -/
def nbody_system.init : nbody_system α :=
  let bodies : Fin 5 → body α := initial_bodies
  let p : vec3 α := (index_range 5 0).foldl
    (fun p i => p.add_assign ((bodies i).velocity.mul (bodies i).mass)) vec3.zero
  ⟨Function.update bodies 0 ((bodies 0).offset_momentum p)⟩

/-- First loop nest of `advance` (displacement phase): `d_positions[k++] = bodies[i].position -
bodies[j].position` for every pair `i < j`.  The result is the final `k` and the filled buffer. -/
def advance_displacements (bodies : Fin 5 → body α) (d_positions : Fin INTERACTIONS → vec3 α) :
    Option (Nat × (Fin INTERACTIONS → vec3 α)) :=
  (index_range 5 0).foldlM
    (fun st i => (index_range 5 (i.val + 1)).foldlM
      (fun (st : Nat × (Fin INTERACTIONS → vec3 α)) j => do
        let d ← array_set st.2 st.1 ((bodies i).position.sub (bodies j).position)
        pure (st.1 + 1, d)) st)
    (0, d_positions)

/-- Second loop of `advance` (coefficient phase): `magnitudes[i] = magnitude(d_positions[i], dt)`
for `i` from `0` to `INTERACTIONS`. -/
def advance_magnitudes (sqrt : α → α) (dt : α) (d_positions : Fin INTERACTIONS → vec3 α)
    (magnitudes : Fin INTERACTIONS → α) : Option (Fin INTERACTIONS → α) :=
  (index_range INTERACTIONS 0).foldlM
    (fun (m : Fin INTERACTIONS → α) i => do
      let d ← array_get d_positions i.val
      array_set m i.val (magnitude sqrt d dt))
    magnitudes

/-- The two statements `bodies[i].velocity -= d_pos * (bodies[j].mass * mag);` and
`bodies[j].velocity += d_pos * (bodies[i].mass * mag);` of the velocity-update phase. -/
def pair_update (d_pos : vec3 α) (mag : α) (i j : Fin 5) (bodies : Fin 5 → body α) :
    Fin 5 → body α :=
  let bodies := Function.update bodies i
    { bodies i with velocity := (bodies i).velocity.sub_assign (d_pos.mul ((bodies j).mass * mag)) }
  Function.update bodies j
    { bodies j with velocity := (bodies j).velocity.add_assign (d_pos.mul ((bodies i).mass * mag)) }

/-- One iteration of the inner loop of the velocity-update phase of `advance`, on the pair
`(i, j)` with running index `k = st.1`: read `d_positions[k]` and `magnitudes[k]`, update the two
velocities, increment `k`. -/
def advance_pair (d_positions : Fin INTERACTIONS → vec3 α) (magnitudes : Fin INTERACTIONS → α)
    (i j : Fin 5) (st : Nat × (Fin 5 → body α)) : Option (Nat × (Fin 5 → body α)) := do
  let d_pos ← array_get d_positions st.1
  let mag ← array_get magnitudes st.1
  pure (st.1 + 1, pair_update d_pos mag i j st.2)

/-- Third loop nest of `advance` (velocity-update phase), starting from `k = 0`. -/
def advance_velocities (d_positions : Fin INTERACTIONS → vec3 α)
    (magnitudes : Fin INTERACTIONS → α) (bodies : Fin 5 → body α) :
    Option (Nat × (Fin 5 → body α)) :=
  (index_range 5 0).foldlM
    (fun st i => (index_range 5 (i.val + 1)).foldlM
      (fun st j => advance_pair d_positions magnitudes i j st) st)
    (0, bodies)

/-- Last loop of `advance` (position-update phase):
`bodies[i].position += bodies[i].velocity * dt`. -/
def advance_positions (dt : α) (bodies : Fin 5 → body α) : Fin 5 → body α :=
  (index_range 5 0).foldl
    (fun (bodies : Fin 5 → body α) i => Function.update bodies i
      { bodies i with position := (bodies i).position.add_assign ((bodies i).velocity.mul dt) })
    bodies

/-- The member function `nbody_system::advance`.  The result is `none` exactly when an index
into `d_positions` or `magnitudes` is out of bounds. -/
def nbody_system.advance (sqrt : α → α) (s : nbody_system α) (dt : α) :
    Option (nbody_system α) := do
  -- `vec3` has a default constructor, `double` has not: the initial contents of `magnitudes`
  -- are indeterminate and stand as `0` here; every cell is written before it is read.
  let d_positions : Fin INTERACTIONS → vec3 α := fun _ => vec3.zero
  let magnitudes : Fin INTERACTIONS → α := fun _ => 0
  let (_, d_positions) ← advance_displacements s.bodies d_positions
  let magnitudes ← advance_magnitudes sqrt dt d_positions magnitudes
  let (_, bodies) ← advance_velocities d_positions magnitudes s.bodies
  pure ⟨advance_positions dt bodies⟩

/-- The member function `nbody_system::energy`; `sqrt` stands for `sqrt` of `<cmath>`. -/
def nbody_system.energy (sqrt : α → α) (s : nbody_system α) : α :=
  (index_range 5 0).foldl
    (fun e i =>
      let ibody := s.bodies i
      let e := e + 0.5 * ibody.mass * sum_squares ibody.velocity
      (index_range 5 (i.val + 1)).foldl
        (fun e j =>
          let jbody := s.bodies j
          let d := ibody.position.sub jbody.position
          e - (ibody.mass * jbody.mass) / sqrt (sum_squares d))
        e)
    0

/-! ## The driver `main` -/

/-- The constant `INT_MAX` of a 32-bit `int`. -/
def INT_MAX : Int := 2147483647

/-- The constant `INT_MIN` of a 32-bit `int`. -/
def INT_MIN : Int := -2147483648

/-- The C library predicate `isspace` in the "C" locale: space, `\t`, `\n`, `\v`, `\f`, `\r`. -/
def isspace (c : Char) : Bool :=
  c.toNat = 32 || (9 ≤ c.toNat && c.toNat ≤ 13)

/-- Value of the longest prefix of decimal digits of `s`, continuing from `acc`. -/
def atoi_digits : List Char → Nat → Nat
  | [], acc => acc
  | c :: cs, acc => if c.isDigit then atoi_digits cs (acc * 10 + (c.toNat - 48)) else acc

/-- Skip leading white space and one optional sign: the result is whether the sign is `-`, and
the rest of the string. -/
def atoi_sign (s : List Char) : Bool × List Char :=
  match s.dropWhile isspace with
  | '-' :: t => (true, t)
  | '+' :: t => (false, t)
  | t => (false, t)

/-- The C library function `atoi` (ISO C 7.22.1), on the characters of a string: white space,
an optional sign and the longest run of decimal digits are converted, everything after is
ignored, and a string without digits there yields `0`.  The behaviour is undefined (`none`) when
the value is not representable as an `int`. -/
def atoi (s : List Char) : Option Int :=
  let (negative, rest) := atoi_sign s
  let v : Int := if negative then -(atoi_digits rest 0 : Int) else (atoi_digits rest 0 : Int)
  if INT_MIN ≤ v ∧ v ≤ INT_MAX then some v else none

/-- The loop `for (int i=0; i<n; ++i) bodies.advance(0.01);` of `main`, as a function of the
number of iterations left (`n - i`). -/
def advance_loop (sqrt : α → α) : Nat → nbody_system α → Option (nbody_system α)
  | 0, bodies => some bodies
  | k + 1, bodies => do
    let bodies ← bodies.advance sqrt 0.01
    advance_loop sqrt k bodies

/-- What a run of `main` leaves behind: the values passed to `printf("%.9f\n", ...)`, in order,
and the exit status. -/
structure run_result (α : Type) where
  printed : List α
  exit_status : Int

/-- The function `main`, on `argv[0], ..., argv[argc - 1]`.  With fewer than two entries
`argv[1]` is a null pointer (or out of bounds) and `atoi(argv[1])` has undefined behaviour:
the result is `none`.  The loop runs `n` times for `n ≥ 0` and not at all for `n < 0`; falling
off the end of `main` returns `0`. -/
def main (sqrt : α → α) (argv : List (List Char)) : Option (run_result α) :=
  match argv with
  | _ :: arg :: _ => do
    let n ← atoi arg
    let bodies : nbody_system α := nbody_system.init
    let e1 := bodies.energy sqrt
    let bodies ← advance_loop sqrt n.toNat bodies
    let e2 := bodies.energy sqrt
    pure ⟨[e1, e2], 0⟩
  | _ => none

end Code

/-! ## Definitions used to state the properties -/

section SpecDefs

variable {α : Type} [Field α]

/-- Sum of a finite family of vectors, component by component. -/
def vec3.sum {ι : Type} (s : Finset ι) (f : ι → vec3 α) : vec3 α :=
  ⟨∑ i in s, (f i).x, ∑ i in s, (f i).y, ∑ i in s, (f i).z⟩

/-- The pair of bodies handled at running index `k` by the loop nests of `advance`. -/
def pair_at : Fin 10 → Fin 5 × Fin 5
  | 0 => (0, 1) | 1 => (0, 2) | 2 => (0, 3) | 3 => (0, 4) | 4 => (1, 2)
  | 5 => (1, 3) | 6 => (1, 4) | 7 => (2, 3) | 8 => (2, 4) | 9 => (3, 4)

/-- Velocity of body `i` after the velocity-update phase, as a sum over the other bodies. -/
def new_velocity (sqrt : α → α) (bodies : Fin 5 → body α) (dt : α) (i : Fin 5) : vec3 α :=
  (bodies i).velocity.sub (vec3.sum (Finset.univ.erase i) fun j =>
    ((bodies i).position.sub (bodies j).position).mul
      ((bodies j).mass * magnitude sqrt ((bodies i).position.sub (bodies j).position) dt))

/-- Whether a step-count argument starts with a number as `atoi` reads it: a decimal digit
after optional white space and an optional sign. -/
def is_numeric (s : List Char) : Bool :=
  match (atoi_sign s).2 with
  | c :: _ => c.isDigit
  | [] => false

/-- The decimal numeral of `n`, most significant digit first (`0` for zero). -/
def decimal (n : Nat) : List Char :=
  if n = 0 then ['0'] else (Nat.digits 10 n).reverse.map Nat.digitChar

/-- A state with pairwise distinct positions: body `i` sits at `(i, 0, 0)`, at rest, with
mass `1`. -/
def line_state : nbody_system α := ⟨fun i => ⟨⟨(i.val : α), 0, 0⟩, vec3.zero, 1⟩⟩

/-- Cross product of two vectors. -/
def vec3.cross (a b : vec3 α) : vec3 α :=
  ⟨a.y * b.z - a.z * b.y, a.z * b.x - a.x * b.z, a.x * b.y - a.y * b.x⟩

/-- Total momentum of a system: the sum over the bodies of `velocity_i * mass_i`. -/
def total_momentum (bodies : Fin 5 → body α) : vec3 α :=
  vec3.sum Finset.univ fun i => (bodies i).velocity.mul (bodies i).mass

/-- Mass-weighted position sum: the sum over the bodies of `position_i * mass_i`. -/
def mass_weighted_position (bodies : Fin 5 → body α) : vec3 α :=
  vec3.sum Finset.univ fun i => (bodies i).position.mul (bodies i).mass

/-- Total angular momentum: the sum over the bodies of `(position_i × velocity_i) * mass_i`. -/
def angular_momentum (bodies : Fin 5 → body α) : vec3 α :=
  vec3.sum Finset.univ fun i => ((bodies i).position.cross (bodies i).velocity).mul (bodies i).mass

/-- The calls `advance(dt)` for each `dt` of `dts`, in order: the states this returns from the
constructed system are the states reachable from it. -/
def advance_all (sqrt : α → α) (dts : List α) (s : nbody_system α) : Option (nbody_system α) :=
  dts.foldlM (fun s dt => s.advance sqrt dt) s

/-- The triples `(i, j, k)` met by the loop nest `k = 0; for i { for j = i + 1 .. { ...; ++k } }`
that the displacement phase and the velocity-update phase of `advance` share, with the final
value of `k`. -/
def pair_enumeration : Nat × List (Fin 5 × Fin 5 × Nat) :=
  (index_range 5 0).foldl
    (fun st i => (index_range 5 (i.val + 1)).foldl
      (fun st j => (st.1 + 1, st.2 ++ [(i, j, st.1)])) st)
    (0, [])

/-- The velocity-update phase of `advance` with the pairs taken in the order `order` (a list of
indices into the stored buffers `d_positions` and `magnitudes`). -/
def velocities_in_order (d_positions : Fin INTERACTIONS → vec3 α)
    (magnitudes : Fin INTERACTIONS → α) (order : List (Fin 10)) (bodies : Fin 5 → body α) :
    Fin 5 → body α :=
  order.foldl (fun b k => pair_update (d_positions k) (magnitudes k) (pair_at k).1 (pair_at k).2 b)
    bodies

/-- The function `advance` with its velocity-update phase replaced by `velocities_in_order`:
displacements and coefficients are stored first, from the positions before the step, as in
`advance`, and the positions are moved last. -/
def advance_in_order (sqrt : α → α) (order : List (Fin 10)) (s : nbody_system α) (dt : α) :
    Option (nbody_system α) := do
  let (_, d_positions) ← advance_displacements s.bodies (fun _ => vec3.zero)
  let magnitudes ← advance_magnitudes sqrt dt d_positions (fun _ => 0)
  pure ⟨advance_positions dt (velocities_in_order d_positions magnitudes order s.bodies)⟩

/-- The fused single-pass variant of `advance`: the pair loop computes
`bodies[i].position - bodies[j].position` and its `magnitude` from the current positions and
applies the two velocity updates at once; then the positions are moved. -/
def advance_fused (sqrt : α → α) (s : nbody_system α) (dt : α) : nbody_system α :=
  let bodies := (index_range 5 0).foldl
    (fun bodies i => (index_range 5 (i.val + 1)).foldl
      (fun (bodies : Fin 5 → body α) j =>
        let d_pos := (bodies i).position.sub (bodies j).position
        let mag := magnitude sqrt d_pos dt
        pair_update d_pos mag i j bodies) bodies)
    s.bodies
  ⟨advance_positions dt bodies⟩

end SpecDefs

/-! ## Unrolling the loops of `advance` -/

section Lemmas

variable {α : Type} [Field α]

theorem index_range_5_0 : index_range 5 0 = [0, 1, 2, 3, 4] := by decide
theorem index_range_5_1 : index_range 5 ((0 : Fin 5).val + 1) = [1, 2, 3, 4] := by decide
theorem index_range_5_2 : index_range 5 ((1 : Fin 5).val + 1) = [2, 3, 4] := by decide
theorem index_range_5_3 : index_range 5 ((2 : Fin 5).val + 1) = [3, 4] := by decide
theorem index_range_5_4 : index_range 5 ((3 : Fin 5).val + 1) = [4] := by decide
theorem index_range_5_5 : index_range 5 ((4 : Fin 5).val + 1) = [] := by decide
theorem index_range_10_0 :
    index_range INTERACTIONS 0 = ([0, 1, 2, 3, 4, 5, 6, 7, 8, 9] : List (Fin 10)) := by decide

theorem array_set_lt {β : Type} {n : Nat} (a : Fin n → β) (k : Nat) (v : β) (h : k < n) :
    array_set a k v = some (Function.update a ⟨k, h⟩ v) := by
  simp [array_set, h]

theorem array_get_lt {β : Type} {n : Nat} (a : Fin n → β) (k : Nat) (h : k < n) :
    array_get a k = some (a ⟨k, h⟩) := by
  simp [array_get, h]

theorem advance_displacements_eq (bodies : Fin 5 → body α) (d0 : Fin INTERACTIONS → vec3 α) :
    advance_displacements bodies d0 = some (10, fun k =>
      (bodies (pair_at k).1).position.sub (bodies (pair_at k).2).position) := by
  simp only [advance_displacements, index_range_5_0, index_range_5_1, index_range_5_2,
    index_range_5_3, index_range_5_4, index_range_5_5, List.foldlM_cons, List.foldlM_nil,
    array_set_lt _ _ _ (by decide : 0 < INTERACTIONS),
    array_set_lt _ _ _ (by decide : 0 + 1 < INTERACTIONS),
    array_set_lt _ _ _ (by decide : 0 + 1 + 1 < INTERACTIONS),
    array_set_lt _ _ _ (by decide : 0 + 1 + 1 + 1 < INTERACTIONS),
    array_set_lt _ _ _ (by decide : 0 + 1 + 1 + 1 + 1 < INTERACTIONS),
    array_set_lt _ _ _ (by decide : 0 + 1 + 1 + 1 + 1 + 1 < INTERACTIONS),
    array_set_lt _ _ _ (by decide : 0 + 1 + 1 + 1 + 1 + 1 + 1 < INTERACTIONS),
    array_set_lt _ _ _ (by decide : 0 + 1 + 1 + 1 + 1 + 1 + 1 + 1 < INTERACTIONS),
    array_set_lt _ _ _ (by decide : 0 + 1 + 1 + 1 + 1 + 1 + 1 + 1 + 1 < INTERACTIONS),
    array_set_lt _ _ _ (by decide : 0 + 1 + 1 + 1 + 1 + 1 + 1 + 1 + 1 + 1 < INTERACTIONS),
    Option.bind_eq_bind, Option.some_bind, Option.pure_def]
  refine congrArg some (Prod.ext rfl ?_)
  funext k
  fin_cases k <;> rfl

theorem advance_magnitudes_eq (sqrt : α → α) (dt : α) (d : Fin INTERACTIONS → vec3 α)
    (m0 : Fin INTERACTIONS → α) :
    advance_magnitudes sqrt dt d m0 = some (fun k => magnitude sqrt (d k) dt) := by
  simp only [advance_magnitudes, index_range_10_0, List.foldlM_cons, List.foldlM_nil,
    array_get_lt _ _ (Fin.is_lt _), array_set_lt _ _ _ (Fin.is_lt _),
    Option.bind_eq_bind, Option.some_bind, Option.pure_def]
  refine congrArg some ?_
  funext k
  fin_cases k <;> rfl

theorem advance_velocities_eq (d : Fin INTERACTIONS → vec3 α) (m : Fin INTERACTIONS → α)
    (bodies : Fin 5 → body α) :
    advance_velocities d m bodies = some (10, (List.finRange 10).foldl
      (fun b k => pair_update (d k) (m k) (pair_at k).1 (pair_at k).2 b) bodies) := by
  simp only [advance_velocities, advance_pair, index_range_5_0, index_range_5_1, index_range_5_2,
    index_range_5_3, index_range_5_4, index_range_5_5, List.foldlM_cons, List.foldlM_nil,
    array_get_lt _ _ (by decide : 0 < INTERACTIONS),
    array_get_lt _ _ (by decide : 0 + 1 < INTERACTIONS),
    array_get_lt _ _ (by decide : 0 + 1 + 1 < INTERACTIONS),
    array_get_lt _ _ (by decide : 0 + 1 + 1 + 1 < INTERACTIONS),
    array_get_lt _ _ (by decide : 0 + 1 + 1 + 1 + 1 < INTERACTIONS),
    array_get_lt _ _ (by decide : 0 + 1 + 1 + 1 + 1 + 1 < INTERACTIONS),
    array_get_lt _ _ (by decide : 0 + 1 + 1 + 1 + 1 + 1 + 1 < INTERACTIONS),
    array_get_lt _ _ (by decide : 0 + 1 + 1 + 1 + 1 + 1 + 1 + 1 < INTERACTIONS),
    array_get_lt _ _ (by decide : 0 + 1 + 1 + 1 + 1 + 1 + 1 + 1 + 1 < INTERACTIONS),
    array_get_lt _ _ (by decide : 0 + 1 + 1 + 1 + 1 + 1 + 1 + 1 + 1 + 1 < INTERACTIONS),
    Option.bind_eq_bind, Option.some_bind, Option.pure_def]
  rfl

theorem sum_squares_sub_comm (a b : vec3 α) : sum_squares (a.sub b) = sum_squares (b.sub a) := by
  simp only [sum_squares, vec3.sub]
  ring

theorem magnitude_sub_comm (sqrt : α → α) (a b : vec3 α) (dt : α) :
    magnitude sqrt (a.sub b) dt = magnitude sqrt (b.sub a) dt := by
  simp only [magnitude, sum_squares_sub_comm a b]

theorem advance_unfold (sqrt : α → α) (s : nbody_system α) (dt : α) :
    s.advance sqrt dt = some ⟨advance_positions dt ((List.finRange 10).foldl
      (fun b k => pair_update
        ((s.bodies (pair_at k).1).position.sub (s.bodies (pair_at k).2).position)
        (magnitude sqrt ((s.bodies (pair_at k).1).position.sub (s.bodies (pair_at k).2).position) dt)
        (pair_at k).1 (pair_at k).2 b) s.bodies)⟩ := by
  simp only [nbody_system.advance, advance_displacements_eq, advance_magnitudes_eq,
    advance_velocities_eq, Option.bind_eq_bind, Option.some_bind, Option.pure_def]
  rfl

theorem finRange_10 : List.finRange 10 = [0, 1, 2, 3, 4, 5, 6, 7, 8, 9] := by decide

theorem pair_update_position (d : vec3 α) (mag : α) (i j : Fin 5) (b : Fin 5 → body α)
    (n : Fin 5) : (pair_update d mag i j b n).position = (b n).position := by
  unfold pair_update
  by_cases hj : n = j
  · subst hj
    by_cases hi : n = i
    · subst hi; simp
    · simp [Function.update_noteq hi]
  · by_cases hi : n = i
    · subst hi; simp [Function.update_noteq hj]
    · simp [Function.update_noteq hj, Function.update_noteq hi]

theorem pair_update_mass (d : vec3 α) (mag : α) (i j : Fin 5) (b : Fin 5 → body α)
    (n : Fin 5) : (pair_update d mag i j b n).mass = (b n).mass := by
  unfold pair_update
  by_cases hj : n = j
  · subst hj
    by_cases hi : n = i
    · subst hi; simp
    · simp [Function.update_noteq hi]
  · by_cases hi : n = i
    · subst hi; simp [Function.update_noteq hj]
    · simp [Function.update_noteq hj, Function.update_noteq hi]

theorem pair_update_velocity_fst (d : vec3 α) (mag : α) (i j : Fin 5) (b : Fin 5 → body α)
    (h : i ≠ j) : (pair_update d mag i j b i).velocity =
      (b i).velocity.sub_assign (d.mul ((b j).mass * mag)) := by
  unfold pair_update
  simp [Function.update_noteq h]

theorem pair_update_velocity_snd (d : vec3 α) (mag : α) (i j : Fin 5) (b : Fin 5 → body α)
    (h : i ≠ j) : (pair_update d mag i j b j).velocity =
      (b j).velocity.add_assign (d.mul ((b i).mass * mag)) := by
  unfold pair_update
  simp [Function.update_noteq (Ne.symm h)]

theorem pair_update_velocity_other (d : vec3 α) (mag : α) (i j : Fin 5) (b : Fin 5 → body α)
    (n : Fin 5) (hi : n ≠ i) (hj : n ≠ j) :
    (pair_update d mag i j b n).velocity = (b n).velocity := by
  unfold pair_update
  simp [Function.update_noteq hj, Function.update_noteq hi]

theorem pair_fold_eq (sqrt : α → α) (bodies : Fin 5 → body α) (dt : α) :
    (List.finRange 10).foldl
      (fun b k => pair_update
        ((bodies (pair_at k).1).position.sub (bodies (pair_at k).2).position)
        (magnitude sqrt ((bodies (pair_at k).1).position.sub (bodies (pair_at k).2).position) dt)
        (pair_at k).1 (pair_at k).2 b) bodies
      = fun i => { bodies i with velocity := new_velocity sqrt bodies dt i } := by
  simp only [finRange_10, List.foldl_cons, List.foldl_nil, pair_at]
  funext i
  have e10 := magnitude_sub_comm sqrt (bodies 1).position (bodies 0).position dt
  have e20 := magnitude_sub_comm sqrt (bodies 2).position (bodies 0).position dt
  have e30 := magnitude_sub_comm sqrt (bodies 3).position (bodies 0).position dt
  have e40 := magnitude_sub_comm sqrt (bodies 4).position (bodies 0).position dt
  have e21 := magnitude_sub_comm sqrt (bodies 2).position (bodies 1).position dt
  have e31 := magnitude_sub_comm sqrt (bodies 3).position (bodies 1).position dt
  have e41 := magnitude_sub_comm sqrt (bodies 4).position (bodies 1).position dt
  have e32 := magnitude_sub_comm sqrt (bodies 3).position (bodies 2).position dt
  have e42 := magnitude_sub_comm sqrt (bodies 4).position (bodies 2).position dt
  have e43 := magnitude_sub_comm sqrt (bodies 4).position (bodies 3).position dt
  fin_cases i <;> refine body.ext ?_ ?_ ?_ <;>
    simp (disch := decide) only [Fin.zero_eta, Fin.mk_one, Fin.isValue, Fin.reduceFinMk,
      pair_update_velocity_fst, pair_update_velocity_snd, pair_update_velocity_other,
      pair_update_mass, pair_update_position]
  all_goals
    simp only [new_velocity, vec3.sum, Finset.sum_erase_eq_sub (Finset.mem_univ _),
      Fin.sum_univ_five, e10, e20, e30, e40, e21, e31, e41, e32, e42, e43]
    ext <;> simp only [vec3.sub, vec3.mul, vec3.sub_assign, vec3.add_assign] <;> ring

theorem advance_positions_eq (dt : α) (bodies : Fin 5 → body α) :
    advance_positions dt bodies = fun i =>
      { bodies i with position := (bodies i).position.add_assign ((bodies i).velocity.mul dt) } := by
  simp only [advance_positions, index_range_5_0, List.foldl_cons, List.foldl_nil]
  funext i
  fin_cases i <;> rfl

theorem advance_eq (sqrt : α → α) (s : nbody_system α) (dt : α) :
    s.advance sqrt dt = some ⟨fun i =>
      { position := (s.bodies i).position.add_assign ((new_velocity sqrt s.bodies dt i).mul dt)
        velocity := new_velocity sqrt s.bodies dt i
        mass := (s.bodies i).mass }⟩ := by
  rw [advance_unfold, pair_fold_eq, advance_positions_eq]

end Lemmas

/-! ## Facts about real square roots -/

section RealLemmas

theorem sum_squares_nonneg (v : vec3 ℝ) : 0 ≤ sum_squares v := by
  unfold sum_squares
  nlinarith [mul_self_nonneg v.x, mul_self_nonneg v.y, mul_self_nonneg v.z]

theorem sum_squares_pos {v : vec3 ℝ} (h : v ≠ vec3.zero) : 0 < sum_squares v := by
  rcases lt_or_eq_of_le (sum_squares_nonneg v) with h0 | h0
  · exact h0
  · exfalso
    apply h
    unfold sum_squares at h0
    have hx : v.x = 0 := by nlinarith [mul_self_nonneg v.x, mul_self_nonneg v.y, mul_self_nonneg v.z]
    have hy : v.y = 0 := by nlinarith [mul_self_nonneg v.x, mul_self_nonneg v.y, mul_self_nonneg v.z]
    have hz : v.z = 0 := by nlinarith [mul_self_nonneg v.x, mul_self_nonneg v.y, mul_self_nonneg v.z]
    exact vec3.ext hx hy hz

theorem sub_ne_zero_of_ne {a b : vec3 ℝ} (h : a ≠ b) : a.sub b ≠ vec3.zero := by
  intro h0
  apply h
  have hx := congrArg vec3.x h0
  have hy := congrArg vec3.y h0
  have hz := congrArg vec3.z h0
  simp only [vec3.sub, vec3.zero] at hx hy hz
  exact vec3.ext (by linarith) (by linarith) (by linarith)

theorem sqrt_cube (x : ℝ) (hx : 0 ≤ x) : Real.sqrt x ^ 3 = x * Real.sqrt x := by
  have h := Real.mul_self_sqrt hx
  calc Real.sqrt x ^ 3 = (Real.sqrt x * Real.sqrt x) * Real.sqrt x := by ring
    _ = x * Real.sqrt x := by rw [h]

theorem magnitude_eq_div_cube (d : vec3 ℝ) (dt : ℝ) :
    magnitude Real.sqrt d dt = dt / Real.sqrt (sum_squares d) ^ 3 := by
  simp only [magnitude, sqrt_cube _ (sum_squares_nonneg d)]

theorem vec3.sum_congr {α ι : Type} [Field α] {s : Finset ι} {f g : ι → vec3 α}
    (h : ∀ j ∈ s, f j = g j) : vec3.sum s f = vec3.sum s g := by
  unfold vec3.sum
  refine vec3.ext ?_ ?_ ?_ <;> exact Finset.sum_congr rfl fun j hj => by rw [h j hj]

end RealLemmas

/-! ## The energy sum -/

section EnergyLemmas
variable {α : Type} [Field α]

theorem energy_eq (sqrt : α → α) (s : nbody_system α) :
    s.energy sqrt =
      (∑ i : Fin 5, 0.5 * (s.bodies i).mass * sum_squares (s.bodies i).velocity) -
      ∑ i : Fin 5, ∑ j in Finset.univ.filter (fun j => i < j),
        (s.bodies i).mass * (s.bodies j).mass /
          sqrt (sum_squares ((s.bodies i).position.sub (s.bodies j).position)) := by
  simp only [nbody_system.energy, index_range_5_0, index_range_5_1, index_range_5_2,
    index_range_5_3, index_range_5_4, index_range_5_5, List.foldl_cons, List.foldl_nil,
    Fin.sum_univ_five, Finset.sum_filter]
  simp +decide only [if_true, if_false, ite_true, ite_false, Fin.isValue, lt_self_iff_false, reduceIte]
  ring
end EnergyLemmas

/-! ## The constructor -/

theorem SOLAR_MASS_pos : (0 : ℝ) < SOLAR_MASS := by
  unfold SOLAR_MASS PI
  norm_num

theorem init_bodies_zero {α : Type} [Field α] :
    (nbody_system.init : nbody_system α).bodies 0 =
      { position := vec3.zero
        velocity := (vec3.sum Finset.univ fun i =>
          (initial_bodies i : body α).velocity.mul (initial_bodies i).mass).mul (-1 / SOLAR_MASS)
        mass := SOLAR_MASS } := by
  simp only [nbody_system.init, index_range_5_0, List.foldl_cons, List.foldl_nil,
    Function.update_same, body.offset_momentum, initial_bodies, vec3.sum, Fin.sum_univ_five]
  refine body.ext rfl ?_ rfl
  refine vec3.ext ?_ ?_ ?_ <;>
    simp only [vec3.mul, vec3.add_assign, vec3.zero, sun] <;> ring

theorem init_bodies_succ {α : Type} [Field α] (i : Fin 5) (h : i ≠ 0) :
    (nbody_system.init : nbody_system α).bodies i = initial_bodies i := by
  simp only [nbody_system.init, Function.update_noteq h]

/-! ## The driver -/

section DriverLemmas
variable {α : Type} [Field α]

theorem advance_loop_total (sqrt : α → α) (n : Nat) (s : nbody_system α) :
    ∃ s', advance_loop sqrt n s = some s' := by
  induction n generalizing s with
  | zero => exact ⟨s, rfl⟩
  | succ k ih =>
    simp only [advance_loop, advance_eq, Option.bind_eq_bind, Option.some_bind]
    exact ih _

theorem iterate_bind_none {σ : Type} (f : σ → Option σ) (n : Nat) :
    (fun o : Option σ => o.bind f)^[n] none = none := by
  induction n with
  | zero => rfl
  | succ k ih => rw [Function.iterate_succ_apply]; exact ih

theorem advance_loop_eq_iterate (sqrt : α → α) (n : Nat) (s : nbody_system α) :
    advance_loop sqrt n s =
      (fun o : Option (nbody_system α) => o.bind fun b => b.advance sqrt 0.01)^[n] (some s) := by
  induction n generalizing s with
  | zero => rfl
  | succ k ih =>
    rw [Function.iterate_succ_apply]
    simp only [advance_loop, Option.some_bind, Option.bind_eq_bind]
    cases h : s.advance sqrt 0.01 with
    | none => simp only [Option.none_bind, iterate_bind_none]
    | some b => simp only [Option.some_bind, ih]

theorem main_eq (sqrt : α → α) (prog arg : List Char) (rest : List (List Char)) (n : Int)
    (s' : nbody_system α) (hn : atoi arg = some n)
    (hs : advance_loop sqrt n.toNat nbody_system.init = some s') :
    main sqrt (prog :: arg :: rest) =
      some ⟨[(nbody_system.init : nbody_system α).energy sqrt, s'.energy sqrt], 0⟩ := by
  simp only [main, hn, hs, Option.bind_eq_bind, Option.some_bind, Option.pure_def]

theorem atoi_of_not_numeric (arg : List Char) (h : is_numeric arg = false) :
    atoi arg = some 0 := by
  unfold is_numeric at h
  unfold atoi
  rcases hs : atoi_sign arg with ⟨negative, rest⟩
  rw [hs] at h
  have hd : atoi_digits rest 0 = 0 := by
    cases rest with
    | nil => rfl
    | cons c cs =>
      simp only at h
      simp only [atoi_digits, h, Bool.false_eq_true, if_false]
  simp only [hd]
  cases negative <;> decide

theorem digitChar_facts (d : Nat) (h : d < 10) :
    (Nat.digitChar d).isDigit = true ∧ (Nat.digitChar d).toNat - 48 = d ∧
      isspace (Nat.digitChar d) = false ∧ Nat.digitChar d ≠ '-' ∧ Nat.digitChar d ≠ '+' := by
  interval_cases d <;> decide

theorem atoi_digits_map (l : List Nat) (h : ∀ d ∈ l, d < 10) (acc : Nat) :
    atoi_digits (l.map Nat.digitChar) acc = l.foldl (fun a d => a * 10 + d) acc := by
  induction l generalizing acc with
  | nil => rfl
  | cons d ds ih =>
    have hd := digitChar_facts d (h d (List.mem_cons_self d ds))
    simp only [List.map_cons, atoi_digits, hd.1, if_true, hd.2.1, List.foldl_cons]
    exact ih (fun x hx => h x (List.mem_cons_of_mem d hx)) _

theorem foldl_digits (n : Nat) :
    (Nat.digits 10 n).reverse.foldl (fun a d => a * 10 + d) 0 = n := by
  rw [List.foldl_reverse]
  conv_rhs => rw [← Nat.ofDigits_digits 10 n]
  generalize Nat.digits 10 n = l
  induction l with
  | nil => rfl
  | cons d ds ih => simp only [List.foldr_cons, Nat.ofDigits_cons, ih]; ring

theorem atoi_sign_digit (c : Char) (cs : List Char) (h1 : isspace c = false) (h2 : c ≠ '-')
    (h3 : c ≠ '+') : atoi_sign (c :: cs) = (false, c :: cs) := by
  unfold atoi_sign
  simp only [List.dropWhile_cons, h1, Bool.false_eq_true, if_false]
  split
  · rename_i heq; exact absurd (List.cons.inj heq).1 h2
  · rename_i heq; exact absurd (List.cons.inj heq).1 h3
  · rfl

theorem atoi_decimal (n : Nat) (hn : (n : Int) ≤ INT_MAX) : atoi (decimal n) = some (n : Int) := by
  have hv : atoi_sign (decimal n) = (false, decimal n) ∧ atoi_digits (decimal n) 0 = n := by
    unfold decimal
    by_cases h0 : n = 0
    · subst h0; decide
    · simp only [h0, if_false]
      have hlt : ∀ d ∈ (Nat.digits 10 n).reverse, d < 10 := fun d hd =>
        Nat.digits_lt_base (by norm_num) (List.mem_reverse.mp hd)
      refine ⟨?_, by rw [atoi_digits_map _ hlt, foldl_digits]⟩
      cases hl : (Nat.digits 10 n).reverse with
      | nil =>
        exfalso
        have : Nat.digits 10 n = [] := by simpa using hl
        exact h0 (Nat.digits_eq_nil_iff_eq_zero.mp this)
      | cons d ds =>
        have hd := digitChar_facts d (hlt d (by rw [hl]; exact List.mem_cons_self d ds))
        exact atoi_sign_digit _ _ hd.2.2.1 hd.2.2.2.1 hd.2.2.2.2
  unfold atoi
  rw [hv.1]
  simp only [Bool.false_eq_true, if_false, hv.2]
  have : INT_MIN ≤ (n : Int) := by unfold INT_MIN; omega
  simp only [this, hn, and_self, if_true]

end DriverLemmas

/-! ## Bounds on the terms of the initial energy -/

theorem div_sqrt_bounds {c s L U : ℝ} (hc : 0 < c) (hs : 0 < s) (hU : 0 < U)
    (h1 : s * L ^ 2 ≤ c ^ 2) (h2 : c ^ 2 ≤ s * U ^ 2) :
    L ≤ c / Real.sqrt s ∧ c / Real.sqrt s ≤ U := by
  have hr : 0 < Real.sqrt s := Real.sqrt_pos.mpr hs
  have hrr : Real.sqrt s * Real.sqrt s = s := Real.mul_self_sqrt hs.le
  constructor
  · rw [le_div_iff₀ hr]
    by_contra hlt
    push_neg at hlt
    have : c ^ 2 < (L * Real.sqrt s) ^ 2 := by
      have := mul_self_lt_mul_self hc.le hlt
      nlinarith
    nlinarith
  · rw [div_le_iff₀ hr]
    by_contra hlt
    push_neg at hlt
    have hpos : 0 ≤ U * Real.sqrt s := (mul_pos hU hr).le
    have : (U * Real.sqrt s) ^ 2 < c ^ 2 := by
      have := mul_self_lt_mul_self hpos hlt
      nlinarith
    nlinarith


theorem kinetic_bound_sun :
    0.00021473954938 ≤ 0.5 * (SOLAR_MASS : ℝ) * sum_squares
      ((vec3.sum Finset.univ fun i =>
        (initial_bodies i : body ℝ).velocity.mul (initial_bodies i).mass).mul (-1 / SOLAR_MASS)) ∧
    0.5 * (SOLAR_MASS : ℝ) * sum_squares
      ((vec3.sum Finset.univ fun i =>
        (initial_bodies i : body ℝ).velocity.mul (initial_bodies i).mass).mul (-1 / SOLAR_MASS)) ≤
      0.00021473954939 := by
  constructor <;>
    norm_num [vec3.sum, Fin.sum_univ_five, initial_bodies, sun, jupiter, saturn, uranus, neptune,
      sum_squares, vec3.mul, vec3.zero, SOLAR_MASS, PI, DAYS_PER_YEAR]

theorem kinetic_bound_jupiter :
    0.15596771327952 ≤ 0.5 * (jupiter : body ℝ).mass * sum_squares (jupiter : body ℝ).velocity ∧
    0.5 * (jupiter : body ℝ).mass * sum_squares (jupiter : body ℝ).velocity ≤ 0.15596771327953 := by
  constructor <;> norm_num [jupiter, sum_squares, SOLAR_MASS, PI, DAYS_PER_YEAR]

theorem kinetic_bound_saturn :
    0.02457472630716 ≤ 0.5 * (saturn : body ℝ).mass * sum_squares (saturn : body ℝ).velocity ∧
    0.5 * (saturn : body ℝ).mass * sum_squares (saturn : body ℝ).velocity ≤ 0.02457472630717 := by
  constructor <;> norm_num [saturn, sum_squares, SOLAR_MASS, PI, DAYS_PER_YEAR]

theorem kinetic_bound_uranus :
    0.00166099430634 ≤ 0.5 * (uranus : body ℝ).mass * sum_squares (uranus : body ℝ).velocity ∧
    0.5 * (uranus : body ℝ).mass * sum_squares (uranus : body ℝ).velocity ≤ 0.00166099430635 := by
  constructor <;> norm_num [uranus, sum_squares, SOLAR_MASS, PI, DAYS_PER_YEAR]

theorem kinetic_bound_neptune :
    0.00133561728037 ≤ 0.5 * (neptune : body ℝ).mass * sum_squares (neptune : body ℝ).velocity ∧
    0.5 * (neptune : body ℝ).mass * sum_squares (neptune : body ℝ).velocity ≤ 0.00133561728038 := by
  constructor <;> norm_num [neptune, sum_squares, SOLAR_MASS, PI, DAYS_PER_YEAR]

theorem pair_bound_sun_jupiter :
    0.29883584330116 ≤ (SOLAR_MASS : ℝ) * (jupiter : body ℝ).mass /
        Real.sqrt (sum_squares ((vec3.zero : vec3 ℝ).sub (jupiter : body ℝ).position)) ∧
      (SOLAR_MASS : ℝ) * (jupiter : body ℝ).mass /
        Real.sqrt (sum_squares ((vec3.zero : vec3 ℝ).sub (jupiter : body ℝ).position)) ≤
      0.29883584330117 := by
  apply div_sqrt_bounds <;>
    norm_num [jupiter, sum_squares, vec3.sub, vec3.zero, SOLAR_MASS, PI]

theorem pair_bound_sun_saturn :
    0.04782787490291 ≤ (SOLAR_MASS : ℝ) * (saturn : body ℝ).mass /
        Real.sqrt (sum_squares ((vec3.zero : vec3 ℝ).sub (saturn : body ℝ).position)) ∧
      (SOLAR_MASS : ℝ) * (saturn : body ℝ).mass /
        Real.sqrt (sum_squares ((vec3.zero : vec3 ℝ).sub (saturn : body ℝ).position)) ≤
      0.04782787490292 := by
  apply div_sqrt_bounds <;>
    norm_num [saturn, sum_squares, vec3.sub, vec3.zero, SOLAR_MASS, PI]

theorem pair_bound_sun_uranus :
    0.00342542988463 ≤ (SOLAR_MASS : ℝ) * (uranus : body ℝ).mass /
        Real.sqrt (sum_squares ((vec3.zero : vec3 ℝ).sub (uranus : body ℝ).position)) ∧
      (SOLAR_MASS : ℝ) * (uranus : body ℝ).mass /
        Real.sqrt (sum_squares ((vec3.zero : vec3 ℝ).sub (uranus : body ℝ).position)) ≤
      0.00342542988464 := by
  apply div_sqrt_bounds <;>
    norm_num [uranus, sum_squares, vec3.sub, vec3.zero, SOLAR_MASS, PI]

theorem pair_bound_sun_neptune :
    0.00266385448135 ≤ (SOLAR_MASS : ℝ) * (neptune : body ℝ).mass /
        Real.sqrt (sum_squares ((vec3.zero : vec3 ℝ).sub (neptune : body ℝ).position)) ∧
      (SOLAR_MASS : ℝ) * (neptune : body ℝ).mass /
        Real.sqrt (sum_squares ((vec3.zero : vec3 ℝ).sub (neptune : body ℝ).position)) ≤
      0.00266385448136 := by
  apply div_sqrt_bounds <;>
    norm_num [neptune, sum_squares, vec3.sub, vec3.zero, SOLAR_MASS, PI]

theorem pair_bound_jupiter_saturn :
    0.00006702613271 ≤ (jupiter : body ℝ).mass * (saturn : body ℝ).mass /
        Real.sqrt (sum_squares ((jupiter : body ℝ).position.sub (saturn : body ℝ).position)) ∧
      (jupiter : body ℝ).mass * (saturn : body ℝ).mass /
        Real.sqrt (sum_squares ((jupiter : body ℝ).position.sub (saturn : body ℝ).position)) ≤
      0.00006702613272 := by
  apply div_sqrt_bounds <;>
    norm_num [jupiter, saturn, sum_squares, vec3.sub, vec3.zero, SOLAR_MASS, PI]

theorem pair_bound_jupiter_uranus :
    0.00000403344417 ≤ (jupiter : body ℝ).mass * (uranus : body ℝ).mass /
        Real.sqrt (sum_squares ((jupiter : body ℝ).position.sub (uranus : body ℝ).position)) ∧
      (jupiter : body ℝ).mass * (uranus : body ℝ).mass /
        Real.sqrt (sum_squares ((jupiter : body ℝ).position.sub (uranus : body ℝ).position)) ≤
      0.00000403344418 := by
  apply div_sqrt_bounds <;>
    norm_num [jupiter, uranus, sum_squares, vec3.sub, vec3.zero, SOLAR_MASS, PI]

theorem pair_bound_jupiter_neptune :
    0.00000284865879 ≤ (jupiter : body ℝ).mass * (neptune : body ℝ).mass /
        Real.sqrt (sum_squares ((jupiter : body ℝ).position.sub (neptune : body ℝ).position)) ∧
      (jupiter : body ℝ).mass * (neptune : body ℝ).mass /
        Real.sqrt (sum_squares ((jupiter : body ℝ).position.sub (neptune : body ℝ).position)) ≤
      0.00000284865880 := by
  apply div_sqrt_bounds <;>
    norm_num [jupiter, neptune, sum_squares, vec3.sub, vec3.zero, SOLAR_MASS, PI]

theorem pair_bound_saturn_uranus :
    0.00000098415164 ≤ (saturn : body ℝ).mass * (uranus : body ℝ).mass /
        Real.sqrt (sum_squares ((saturn : body ℝ).position.sub (uranus : body ℝ).position)) ∧
      (saturn : body ℝ).mass * (uranus : body ℝ).mass /
        Real.sqrt (sum_squares ((saturn : body ℝ).position.sub (uranus : body ℝ).position)) ≤
      0.00000098415165 := by
  apply div_sqrt_bounds <;>
    norm_num [saturn, uranus, sum_squares, vec3.sub, vec3.zero, SOLAR_MASS, PI]

theorem pair_bound_saturn_neptune :
    0.00000074371162 ≤ (saturn : body ℝ).mass * (neptune : body ℝ).mass /
        Real.sqrt (sum_squares ((saturn : body ℝ).position.sub (neptune : body ℝ).position)) ∧
      (saturn : body ℝ).mass * (neptune : body ℝ).mass /
        Real.sqrt (sum_squares ((saturn : body ℝ).position.sub (neptune : body ℝ).position)) ≤
      0.00000074371163 := by
  apply div_sqrt_bounds <;>
    norm_num [saturn, neptune, sum_squares, vec3.sub, vec3.zero, SOLAR_MASS, PI]

theorem pair_bound_uranus_neptune :
    0.00000031588228 ≤ (uranus : body ℝ).mass * (neptune : body ℝ).mass /
        Real.sqrt (sum_squares ((uranus : body ℝ).position.sub (neptune : body ℝ).position)) ∧
      (uranus : body ℝ).mass * (neptune : body ℝ).mass /
        Real.sqrt (sum_squares ((uranus : body ℝ).position.sub (neptune : body ℝ).position)) ≤
      0.00000031588229 := by
  apply div_sqrt_bounds <;>
    norm_num [uranus, neptune, sum_squares, vec3.sub, vec3.zero, SOLAR_MASS, PI]

theorem energy_init_bounds :
    -0.16907516382859 ≤ (nbody_system.init : nbody_system ℝ).energy Real.sqrt ∧
      (nbody_system.init : nbody_system ℝ).energy Real.sqrt ≤ -0.16907516382844 := by
  simp only [nbody_system.energy, index_range_5_0, index_range_5_1, index_range_5_2,
    index_range_5_3, index_range_5_4, index_range_5_5, List.foldl_cons, List.foldl_nil,
    init_bodies_zero, init_bodies_succ 1 (by decide), init_bodies_succ 2 (by decide),
    init_bodies_succ 3 (by decide), init_bodies_succ 4 (by decide)]
  have e1 : (initial_bodies 1 : body ℝ) = jupiter := rfl
  have e2 : (initial_bodies 2 : body ℝ) = saturn := rfl
  have e3 : (initial_bodies 3 : body ℝ) = uranus := rfl
  have e4 : (initial_bodies 4 : body ℝ) = neptune := rfl
  rw [e1, e2, e3, e4]
  have k0 := kinetic_bound_sun
  have k1 := kinetic_bound_jupiter
  have k2 := kinetic_bound_saturn
  have k3 := kinetic_bound_uranus
  have k4 := kinetic_bound_neptune
  have p01 := pair_bound_sun_jupiter
  have p02 := pair_bound_sun_saturn
  have p03 := pair_bound_sun_uranus
  have p04 := pair_bound_sun_neptune
  have p12 := pair_bound_jupiter_saturn
  have p13 := pair_bound_jupiter_uranus
  have p14 := pair_bound_jupiter_neptune
  have p23 := pair_bound_saturn_uranus
  have p24 := pair_bound_saturn_neptune
  have p34 := pair_bound_uranus_neptune
  constructor <;> norm_num at * <;> linarith

/-! ## Conservation laws of `advance` -/

section ConservationLemmas

variable {α : Type} [Field α]

theorem magnitude_zero (sqrt : α → α) (d : vec3 α) : magnitude sqrt d 0 = 0 := by
  simp only [magnitude, zero_div]

theorem advance_zero (sqrt : α → α) (s : nbody_system α) : s.advance sqrt 0 = some s := by
  rw [advance_eq]
  refine congrArg some (nbody_system.ext (funext fun i => ?_))
  have hv : new_velocity sqrt s.bodies 0 i = (s.bodies i).velocity := by
    simp only [new_velocity, magnitude_zero, mul_zero, vec3.sum, vec3.mul, vec3.sub,
      Finset.sum_const_zero, sub_zero]
  refine body.ext ?_ hv rfl
  simp only [vec3.add_assign, vec3.mul, mul_zero, add_zero]

theorem total_momentum_advance (sqrt : α → α) (s : nbody_system α) (dt : α) :
    total_momentum (fun i =>
      ({ position := (s.bodies i).position.add_assign ((new_velocity sqrt s.bodies dt i).mul dt)
         velocity := new_velocity sqrt s.bodies dt i
         mass := (s.bodies i).mass } : body α)) = total_momentum s.bodies := by
  have e10 := magnitude_sub_comm sqrt (s.bodies 1).position (s.bodies 0).position dt
  have e20 := magnitude_sub_comm sqrt (s.bodies 2).position (s.bodies 0).position dt
  have e30 := magnitude_sub_comm sqrt (s.bodies 3).position (s.bodies 0).position dt
  have e40 := magnitude_sub_comm sqrt (s.bodies 4).position (s.bodies 0).position dt
  have e21 := magnitude_sub_comm sqrt (s.bodies 2).position (s.bodies 1).position dt
  have e31 := magnitude_sub_comm sqrt (s.bodies 3).position (s.bodies 1).position dt
  have e41 := magnitude_sub_comm sqrt (s.bodies 4).position (s.bodies 1).position dt
  have e32 := magnitude_sub_comm sqrt (s.bodies 3).position (s.bodies 2).position dt
  have e42 := magnitude_sub_comm sqrt (s.bodies 4).position (s.bodies 2).position dt
  have e43 := magnitude_sub_comm sqrt (s.bodies 4).position (s.bodies 3).position dt
  simp only [total_momentum, new_velocity, vec3.sum, Finset.sum_erase_eq_sub (Finset.mem_univ _),
    Fin.sum_univ_five, e10, e20, e30, e40, e21, e31, e41, e32, e42, e43]
  refine vec3.ext ?_ ?_ ?_ <;> simp only [vec3.sub, vec3.mul] <;> ring

theorem angular_momentum_advance (sqrt : α → α) (s : nbody_system α) (dt : α) :
    angular_momentum (fun i =>
      ({ position := (s.bodies i).position.add_assign ((new_velocity sqrt s.bodies dt i).mul dt)
         velocity := new_velocity sqrt s.bodies dt i
         mass := (s.bodies i).mass } : body α)) = angular_momentum s.bodies := by
  have e10 := magnitude_sub_comm sqrt (s.bodies 1).position (s.bodies 0).position dt
  have e20 := magnitude_sub_comm sqrt (s.bodies 2).position (s.bodies 0).position dt
  have e30 := magnitude_sub_comm sqrt (s.bodies 3).position (s.bodies 0).position dt
  have e40 := magnitude_sub_comm sqrt (s.bodies 4).position (s.bodies 0).position dt
  have e21 := magnitude_sub_comm sqrt (s.bodies 2).position (s.bodies 1).position dt
  have e31 := magnitude_sub_comm sqrt (s.bodies 3).position (s.bodies 1).position dt
  have e41 := magnitude_sub_comm sqrt (s.bodies 4).position (s.bodies 1).position dt
  have e32 := magnitude_sub_comm sqrt (s.bodies 3).position (s.bodies 2).position dt
  have e42 := magnitude_sub_comm sqrt (s.bodies 4).position (s.bodies 2).position dt
  have e43 := magnitude_sub_comm sqrt (s.bodies 4).position (s.bodies 3).position dt
  simp only [angular_momentum, new_velocity, vec3.sum, Finset.sum_erase_eq_sub (Finset.mem_univ _),
    Fin.sum_univ_five, e10, e20, e30, e40, e21, e31, e41, e32, e42, e43]
  refine vec3.ext ?_ ?_ ?_ <;>
    simp only [vec3.sub, vec3.mul, vec3.cross, vec3.add_assign] <;> ring

theorem advance_all_invariant (sqrt : α → α) (P : nbody_system α → Prop)
    (hstep : ∀ s dt s', P s → s.advance sqrt dt = some s' → P s')
    (dts : List α) (s : nbody_system α) (h : P s) :
    ∃ s', advance_all sqrt dts s = some s' ∧ P s' := by
  induction dts generalizing s with
  | nil => exact ⟨s, rfl, h⟩
  | cons dt dts ih =>
    obtain ⟨s', hs', hP⟩ := ih _ (hstep s dt _ h (advance_eq sqrt s dt))
    have hcons : advance_all sqrt (dt :: dts) s =
        (s.advance sqrt dt).bind (advance_all sqrt dts) := rfl
    refine ⟨s', ?_, hP⟩
    rw [hcons, advance_eq, Option.some_bind]
    exact hs'

theorem advance_mass (sqrt : α → α) (s s' : nbody_system α) (dt : α)
    (h : s.advance sqrt dt = some s') (i : Fin 5) : (s'.bodies i).mass = (s.bodies i).mass := by
  rw [advance_eq] at h
  rw [← Option.some.inj h]

theorem mass_weighted_position_advance (sqrt : α → α) (s : nbody_system α) (dt : α) :
    mass_weighted_position (fun i =>
      ({ position := (s.bodies i).position.add_assign ((new_velocity sqrt s.bodies dt i).mul dt)
         velocity := new_velocity sqrt s.bodies dt i
         mass := (s.bodies i).mass } : body α)) =
      (mass_weighted_position s.bodies).add_assign ((total_momentum (fun i =>
        ({ position := (s.bodies i).position.add_assign
              ((new_velocity sqrt s.bodies dt i).mul dt)
           velocity := new_velocity sqrt s.bodies dt i
           mass := (s.bodies i).mass } : body α))).mul dt) := by
  simp only [mass_weighted_position, total_momentum, vec3.sum, Fin.sum_univ_five]
  refine vec3.ext ?_ ?_ ?_ <;> simp only [vec3.mul, vec3.add_assign] <;> ring

end ConservationLemmas

theorem initial_mass_pos (i : Fin 5) : 0 < (initial_bodies i : body ℝ).mass := by
  fin_cases i <;>
    norm_num [initial_bodies, sun, jupiter, saturn, uranus, neptune, SOLAR_MASS, PI]

theorem init_mass (i : Fin 5) :
    ((nbody_system.init : nbody_system ℝ).bodies i).mass = (initial_bodies i : body ℝ).mass := by
  by_cases h : i = 0
  · subst h; rw [init_bodies_zero]; rfl
  · rw [init_bodies_succ i h]

theorem total_momentum_init :
    total_momentum (nbody_system.init : nbody_system ℝ).bodies = vec3.zero := by
  have hM : (SOLAR_MASS : ℝ) ≠ 0 := SOLAR_MASS_pos.ne'
  simp only [total_momentum, vec3.sum, Fin.sum_univ_five, init_bodies_zero,
    init_bodies_succ 1 (by decide), init_bodies_succ 2 (by decide),
    init_bodies_succ 3 (by decide), init_bodies_succ 4 (by decide), initial_bodies]
  refine vec3.ext ?_ ?_ ?_ <;>
    simp only [vec3.mul, vec3.zero, sun] <;> field_simp <;> ring

/-! ## Order of the pairs, fused loop -/

section OrderLemmas

variable {α : Type} [Field α]

theorem pair_update_velocity (d : vec3 α) (mag : α) (i j : Fin 5) (b : Fin 5 → body α)
    (h : i ≠ j) (n : Fin 5) :
    (pair_update d mag i j b n).velocity =
      ((b n).velocity.sub_assign (if n = i then d.mul ((b j).mass * mag) else vec3.zero)).add_assign
        (if n = j then d.mul ((b i).mass * mag) else vec3.zero) := by
  by_cases hi : n = i
  · subst hi
    rw [pair_update_velocity_fst d mag n j b h, if_pos rfl, if_neg h]
    refine vec3.ext ?_ ?_ ?_ <;> simp only [vec3.add_assign, vec3.zero, add_zero]
  · by_cases hj : n = j
    · subst hj
      rw [pair_update_velocity_snd d mag i n b h, if_neg hi, if_pos rfl]
      refine vec3.ext ?_ ?_ ?_ <;> simp only [vec3.add_assign, vec3.sub_assign, vec3.zero, sub_zero]
    · rw [pair_update_velocity_other d mag i j b n hi hj, if_neg hi, if_neg hj]
      refine vec3.ext ?_ ?_ ?_ <;>
        simp only [vec3.add_assign, vec3.sub_assign, vec3.zero, sub_zero, add_zero]

theorem pair_update_comm (d d' : vec3 α) (mag mag' : α) (i j i' j' : Fin 5) (h : i ≠ j)
    (h' : i' ≠ j') (b : Fin 5 → body α) :
    pair_update d mag i j (pair_update d' mag' i' j' b) =
      pair_update d' mag' i' j' (pair_update d mag i j b) := by
  funext n
  refine body.ext ?_ ?_ ?_
  · simp only [pair_update_position]
  · simp only [pair_update_velocity _ _ _ _ _ h, pair_update_velocity _ _ _ _ _ h',
      pair_update_mass]
    refine vec3.ext ?_ ?_ ?_ <;> simp only [vec3.add_assign, vec3.sub_assign] <;> ring
  · simp only [pair_update_mass]

theorem pair_at_ne (k : Fin 10) : (pair_at k).1 ≠ (pair_at k).2 := by
  revert k; decide

theorem velocities_in_order_perm (d : Fin INTERACTIONS → vec3 α) (m : Fin INTERACTIONS → α)
    (order : List (Fin 10)) (h : order.Perm (List.finRange 10)) (bodies : Fin 5 → body α) :
    velocities_in_order d m order bodies = velocities_in_order d m (List.finRange 10) bodies :=
  h.foldl_eq' (fun x _ y _ z => pair_update_comm _ _ _ _ _ _ _ _ (pair_at_ne y) (pair_at_ne x) z)
    bodies

theorem advance_in_order_eq (sqrt : α → α) (order : List (Fin 10))
    (h : order.Perm (List.finRange 10)) (s : nbody_system α) (dt : α) :
    advance_in_order sqrt order s dt = s.advance sqrt dt := by
  rw [advance_unfold]
  simp only [advance_in_order, advance_displacements_eq, advance_magnitudes_eq,
    Option.bind_eq_bind, Option.some_bind, Option.pure_def, velocities_in_order_perm _ _ _ h]
  rfl

theorem advance_eq_fused (sqrt : α → α) (s : nbody_system α) (dt : α) :
    s.advance sqrt dt = some (advance_fused sqrt s dt) := by
  rw [advance_unfold]
  simp only [advance_fused, finRange_10, index_range_5_0, index_range_5_1, index_range_5_2,
    index_range_5_3, index_range_5_4, index_range_5_5, List.foldl_cons, List.foldl_nil, pair_at,
    pair_update_position]

end OrderLemmas

/-! ## The initial positions -/

theorem init_position (i : Fin 5) :
    ((nbody_system.init : nbody_system ℝ).bodies i).position =
      (initial_bodies i : body ℝ).position := by
  by_cases h : i = 0
  · subst h; rw [init_bodies_zero]; rfl
  · rw [init_bodies_succ i h]

theorem initial_position_x_ne (i j : Fin 5) (h : i ≠ j) :
    (initial_bodies i : body ℝ).position.x ≠ (initial_bodies j : body ℝ).position.x := by
  fin_cases i <;> fin_cases j <;>
    first
    | exact absurd rfl h
    | norm_num [initial_bodies, sun, jupiter, saturn, uranus, neptune, vec3.zero]

theorem init_position_ne (i j : Fin 5) (h : i ≠ j) :
    ((nbody_system.init : nbody_system ℝ).bodies i).position ≠
      ((nbody_system.init : nbody_system ℝ).bodies j).position := by
  rw [init_position, init_position]
  exact fun heq => initial_position_x_ne i j h (congrArg vec3.x heq)

/-! ## The claims -/

/-- C1: for every state with pairwise distinct positions and every `dt`, `advance(dt)` returns
a state in which the velocity of each body `i` is its old velocity minus the sum over all
`j ≠ i` of `(r_i - r_j) * (mass_j * dt / |r_i - r_j|^3)`, with every `r` the position held
before the call. -/
theorem advance_velocity_closed_form (s : nbody_system ℝ) (dt : ℝ)
    (hdistinct : ∀ i j, i ≠ j → (s.bodies i).position ≠ (s.bodies j).position) :
    ∃ s', s.advance Real.sqrt dt = some s' ∧ ∀ i, (s'.bodies i).velocity =
      (s.bodies i).velocity.sub (vec3.sum (Finset.univ.erase i) fun j =>
        ((s.bodies i).position.sub (s.bodies j).position).mul
          ((s.bodies j).mass * dt /
            Real.sqrt (sum_squares ((s.bodies i).position.sub (s.bodies j).position)) ^ 3)) := by
  refine ⟨_, advance_eq Real.sqrt s dt, fun i => ?_⟩
  simp only [new_velocity]
  refine congrArg _ (vec3.sum_congr fun j hj => ?_)
  have hpos : 0 < sum_squares ((s.bodies i).position.sub (s.bodies j).position) :=
    sum_squares_pos (sub_ne_zero_of_ne (hdistinct i j (Ne.symm (Finset.ne_of_mem_erase hj))))
  rw [magnitude, ← sqrt_cube _ hpos.le, mul_div_assoc]

theorem advance_velocity_closed_form_witness :
    (∀ i j, i ≠ j → ((line_state : nbody_system ℝ).bodies i).position ≠
      ((line_state : nbody_system ℝ).bodies j).position) ∧
    ∃ s', (line_state : nbody_system ℝ).advance Real.sqrt 1 = some s' ∧
      ∀ i, (s'.bodies i).velocity =
        ((line_state : nbody_system ℝ).bodies i).velocity.sub
          (vec3.sum (Finset.univ.erase i) fun j =>
            (((line_state : nbody_system ℝ).bodies i).position.sub
              ((line_state : nbody_system ℝ).bodies j).position).mul
                (((line_state : nbody_system ℝ).bodies j).mass * 1 /
                  Real.sqrt (sum_squares
                    (((line_state : nbody_system ℝ).bodies i).position.sub
                      ((line_state : nbody_system ℝ).bodies j).position)) ^ 3)) :=
  have h : ∀ i j, i ≠ j → ((line_state : nbody_system ℝ).bodies i).position ≠
      ((line_state : nbody_system ℝ).bodies j).position := by
    intro i j hij heq
    have hx := congrArg vec3.x heq
    simp only [line_state] at hx
    exact hij (Fin.val_injective (Nat.cast_injective hx))
  ⟨h, advance_velocity_closed_form (line_state : nbody_system ℝ) 1 h⟩

/-- C2: for every state and every `dt`, `advance(dt)` returns a state in which the position of
each body is its position before the call plus `dt` times its velocity after the call, the
velocity produced by the velocity-update phase. -/
theorem advance_position_uses_new_velocity {α : Type} [Field α] (sqrt : α → α)
    (s : nbody_system α) (dt : α) :
    ∃ s', s.advance sqrt dt = some s' ∧
      ∃ k bodies,
        (advance_displacements s.bodies (fun _ => vec3.zero)).bind (fun kd =>
          (advance_magnitudes sqrt dt kd.2 (fun _ => 0)).bind (fun m =>
            advance_velocities kd.2 m s.bodies)) = some (k, bodies) ∧
        ∀ i, (s'.bodies i).velocity = (bodies i).velocity ∧
          (s'.bodies i).position = (s.bodies i).position.add ((bodies i).velocity.mul dt) := by
  refine ⟨_, advance_eq sqrt s dt, 10,
    fun i => { s.bodies i with velocity := new_velocity sqrt s.bodies dt i }, ?_,
    fun i => ⟨rfl, rfl⟩⟩
  simp only [advance_displacements_eq, advance_magnitudes_eq, advance_velocities_eq,
    Option.some_bind]
  exact congrArg some (Prod.ext rfl (pair_fold_eq sqrt s.bodies dt))

/-- C3: for every state, `energy()` is the sum over all bodies of
`0.5 * mass_i * sum_squares(velocity_i)` minus the sum over all pairs `i < j` of
`mass_i * mass_j / sqrt(sum_squares(position_i - position_j))` (over the reals). -/
theorem energy_eq_kinetic_minus_potential (s : nbody_system ℝ) :
    s.energy Real.sqrt =
      (∑ i : Fin 5, 0.5 * (s.bodies i).mass * sum_squares (s.bodies i).velocity) -
      ∑ i : Fin 5, ∑ j in Finset.univ.filter (fun j => i < j),
        (s.bodies i).mass * (s.bodies j).mass /
          Real.sqrt (sum_squares ((s.bodies i).position.sub (s.bodies j).position)) :=
  energy_eq Real.sqrt s

/-- C4: immediately after construction the total momentum, the sum over the five bodies of
`velocity_i * mass_i`, is the zero vector (over the reals). -/
theorem init_total_momentum_zero :
    vec3.sum Finset.univ (fun i =>
      ((nbody_system.init : nbody_system ℝ).bodies i).velocity.mul
        ((nbody_system.init : nbody_system ℝ).bodies i).mass) = vec3.zero := by
  have hM : (SOLAR_MASS : ℝ) ≠ 0 := SOLAR_MASS_pos.ne'
  simp only [vec3.sum, Fin.sum_univ_five, init_bodies_zero,
    init_bodies_succ 1 (by decide), init_bodies_succ 2 (by decide),
    init_bodies_succ 3 (by decide), init_bodies_succ 4 (by decide), initial_bodies]
  refine vec3.ext ?_ ?_ ?_ <;>
    simp only [vec3.mul, vec3.zero, sun] <;> field_simp <;> ring

/-- C5: after construction the velocity of body 0 is `-p / starMass`, where `p` is the sum of
`velocity_i * mass_i` over the five bodies of the constant table (sun, jupiter, saturn, uranus,
neptune) and `starMass` is the mass stored in body 0. -/
theorem init_star_velocity :
    ((nbody_system.init : nbody_system ℝ).bodies 0).velocity =
      ⟨-(vec3.sum Finset.univ fun i =>
            (initial_bodies i : body ℝ).velocity.mul (initial_bodies i).mass).x /
          ((nbody_system.init : nbody_system ℝ).bodies 0).mass,
        -(vec3.sum Finset.univ fun i =>
            (initial_bodies i : body ℝ).velocity.mul (initial_bodies i).mass).y /
          ((nbody_system.init : nbody_system ℝ).bodies 0).mass,
        -(vec3.sum Finset.univ fun i =>
            (initial_bodies i : body ℝ).velocity.mul (initial_bodies i).mass).z /
          ((nbody_system.init : nbody_system ℝ).bodies 0).mass⟩ := by
  simp only [init_bodies_zero, vec3.mul]
  refine vec3.ext ?_ ?_ ?_ <;> simp only <;> ring

/-- C6: for every non-zero vector `d` and every `dt`, `magnitude(d, dt)` is
`dt / (sum_squares(d) * sqrt(sum_squares(d)))`, which equals `dt / |d|^3` with
`|d| = sqrt(sum_squares(d))`, and `magnitude(d, dt) * |d|^3 = dt`. -/
theorem magnitude_eq_dt_div_norm_cube (d : vec3 ℝ) (dt : ℝ) (hd : d ≠ vec3.zero) :
    magnitude Real.sqrt d dt = dt / (sum_squares d * Real.sqrt (sum_squares d)) ∧
    dt / (sum_squares d * Real.sqrt (sum_squares d)) = dt / Real.sqrt (sum_squares d) ^ 3 ∧
    magnitude Real.sqrt d dt * Real.sqrt (sum_squares d) ^ 3 = dt := by
  have hpos : 0 < sum_squares d := sum_squares_pos hd
  have hsqrt : 0 < Real.sqrt (sum_squares d) := Real.sqrt_pos.mpr hpos
  have hcube : Real.sqrt (sum_squares d) ^ 3 ≠ 0 := (pow_pos hsqrt 3).ne'
  refine ⟨rfl, by rw [sqrt_cube _ hpos.le], ?_⟩
  rw [magnitude_eq_div_cube, div_mul_cancel₀ _ hcube]

theorem magnitude_eq_dt_div_norm_cube_witness :
    (⟨3, 4, 0⟩ : vec3 ℝ) ≠ vec3.zero ∧
    (magnitude Real.sqrt (⟨3, 4, 0⟩ : vec3 ℝ) 2 =
        2 / (sum_squares (⟨3, 4, 0⟩ : vec3 ℝ) * Real.sqrt (sum_squares (⟨3, 4, 0⟩ : vec3 ℝ))) ∧
      2 / (sum_squares (⟨3, 4, 0⟩ : vec3 ℝ) * Real.sqrt (sum_squares (⟨3, 4, 0⟩ : vec3 ℝ))) =
        2 / Real.sqrt (sum_squares (⟨3, 4, 0⟩ : vec3 ℝ)) ^ 3 ∧
      magnitude Real.sqrt (⟨3, 4, 0⟩ : vec3 ℝ) 2 *
        Real.sqrt (sum_squares (⟨3, 4, 0⟩ : vec3 ℝ)) ^ 3 = 2) :=
  have h : (⟨3, 4, 0⟩ : vec3 ℝ) ≠ vec3.zero := by
    intro h0
    have hx := congrArg vec3.x h0
    simp only [vec3.zero] at hx
    norm_num at hx
  ⟨h, magnitude_eq_dt_div_norm_cube ⟨3, 4, 0⟩ 2 h⟩

/-- C7: for every step count `N` with `0 ≤ N ≤ INT_MAX`, the state `sN` reached by applying
`advance(0.01)` exactly `N` times to the constructed system exists, the decimal numeral of `N`
is an argument that `atoi` converts to `N`, and on every argument that `atoi` converts to `N`
the driver prints exactly two values and exits with status 0: first `energy()` of the
constructed system, then `energy()` of `sN`. -/
theorem main_reports_two_energies (N : ℕ) (hN : (N : ℤ) ≤ INT_MAX) :
    ∃ sN : nbody_system ℝ,
      (fun o : Option (nbody_system ℝ) => o.bind fun b => b.advance Real.sqrt 0.01)^[N]
        (some nbody_system.init) = some sN ∧
      atoi (decimal N) = some (N : ℤ) ∧
      ∀ (prog arg : List Char) (rest : List (List Char)), atoi arg = some (N : ℤ) →
        main Real.sqrt (prog :: arg :: rest) =
          some ⟨[(nbody_system.init : nbody_system ℝ).energy Real.sqrt,
            sN.energy Real.sqrt], 0⟩ := by
  obtain ⟨sN, hs⟩ := advance_loop_total Real.sqrt N (nbody_system.init : nbody_system ℝ)
  refine ⟨sN, ?_, atoi_decimal N hN, fun prog arg rest h => ?_⟩
  · rw [← advance_loop_eq_iterate, hs]
  · exact main_eq Real.sqrt prog arg rest N sN h (by simpa using hs)

theorem main_reports_two_energies_witness :
    ((2 : ℕ) : ℤ) ≤ INT_MAX ∧
    ∃ sN : nbody_system ℝ,
      (fun o : Option (nbody_system ℝ) => o.bind fun b => b.advance Real.sqrt 0.01)^[2]
        (some nbody_system.init) = some sN ∧
      atoi (decimal 2) = some ((2 : ℕ) : ℤ) ∧
      ∀ (prog arg : List Char) (rest : List (List Char)), atoi arg = some ((2 : ℕ) : ℤ) →
        main Real.sqrt (prog :: arg :: rest) =
          some ⟨[(nbody_system.init : nbody_system ℝ).energy Real.sqrt,
            sN.energy Real.sqrt], 0⟩ :=
  ⟨by decide, main_reports_two_energies 2 (by decide)⟩

/-- C8: when the step-count argument converts to `0`, the two energies printed by the driver
are the same value, the energy of the constructed system. -/
theorem main_zero_steps (prog arg : List Char) (rest : List (List Char))
    (h : atoi arg = some 0) :
    main Real.sqrt (prog :: arg :: rest) =
      some ⟨[(nbody_system.init : nbody_system ℝ).energy Real.sqrt,
        (nbody_system.init : nbody_system ℝ).energy Real.sqrt], 0⟩ :=
  main_eq Real.sqrt prog arg rest 0 nbody_system.init h rfl

theorem main_zero_steps_witness :
    atoi ['0'] = some 0 ∧
    main Real.sqrt (['n', 'b', 'o', 'd', 'y'] :: ['0'] :: []) =
      some ⟨[(nbody_system.init : nbody_system ℝ).energy Real.sqrt,
        (nbody_system.init : nbody_system ℝ).energy Real.sqrt], 0⟩ :=
  ⟨by decide, main_zero_steps ['n', 'b', 'o', 'd', 'y'] ['0'] [] (by decide)⟩

/-- C9: the energy of the freshly constructed system is within `5 * 10^-10` of `-0.169075164`
over the reals, so that it is `-0.169075164` when rounded to 9 digits after the decimal
point. -/
theorem energy_init_value :
    |(nbody_system.init : nbody_system ℝ).energy Real.sqrt - (-0.169075164)| < 5e-10 ∧
      round ((nbody_system.init : nbody_system ℝ).energy Real.sqrt * 10 ^ 9) = -169075164 := by
  obtain ⟨hlo, hhi⟩ := energy_init_bounds
  refine ⟨?_, ?_⟩
  · rw [abs_lt]
    constructor <;> norm_num at * <;> linarith
  · rw [round_eq, Int.floor_eq_iff]
    constructor <;> norm_num at * <;> linarith

/-- C10, as stated, fails: with the non-numeric argument `abc` the driver does not fail; it
exits with status 0, having printed the initial energy twice (zero steps). -/
theorem main_non_numeric_counterexample :
    (main Real.sqrt [['n', 'b', 'o', 'd', 'y'], ['a', 'b', 'c']]).map run_result.exit_status =
        some 0 ∧
      (main Real.sqrt [['n', 'b', 'o', 'd', 'y'], ['a', 'b', 'c']]).map run_result.printed =
        some [(nbody_system.init : nbody_system ℝ).energy Real.sqrt,
          (nbody_system.init : nbody_system ℝ).energy Real.sqrt] := by
  rw [main_eq Real.sqrt _ _ _ 0 nbody_system.init (by decide) rfl]
  exact ⟨rfl, rfl⟩

/-- C10, amended: with a step-count argument that does not start with a number (no decimal
digit after optional white space and sign) the driver does not fail: it runs zero steps, prints
the initial energy twice and exits with status 0. -/
theorem main_non_numeric_runs_zero_steps (prog arg : List Char) (rest : List (List Char))
    (h : is_numeric arg = false) :
    main Real.sqrt (prog :: arg :: rest) =
      some ⟨[(nbody_system.init : nbody_system ℝ).energy Real.sqrt,
        (nbody_system.init : nbody_system ℝ).energy Real.sqrt], 0⟩ :=
  main_eq Real.sqrt prog arg rest 0 nbody_system.init (atoi_of_not_numeric arg h) rfl

theorem main_non_numeric_runs_zero_steps_witness :
    is_numeric ['a', 'b', 'c'] = false ∧
    main Real.sqrt (['n', 'b', 'o', 'd', 'y'] :: ['a', 'b', 'c'] :: []) =
      some ⟨[(nbody_system.init : nbody_system ℝ).energy Real.sqrt,
        (nbody_system.init : nbody_system ℝ).energy Real.sqrt], 0⟩ :=
  ⟨by decide, main_non_numeric_runs_zero_steps ['n', 'b', 'o', 'd', 'y'] ['a', 'b', 'c'] []
    (by decide)⟩

/-- C11: `INTERACTIONS` is 10; the loop nest of `advance` meets the 10 pairs `i < j` in
lexicographic order with `k` running from 0 to 9, every unordered pair of distinct bodies once;
the displacement phase fills cell `k` of `d_positions` for the pair `pair_at k` and ends with
`k = 10`, the coefficient phase fills all 10 cells of `magnitudes`, the velocity-update phase
reads cell `k` of both buffers for the same pair `pair_at k` and ends with `k = 10`; no access
is out of bounds, so `advance` returns a state. -/
theorem advance_pair_enumeration {α : Type} [Field α] (sqrt : α → α) :
    INTERACTIONS = 10 ∧
    pair_enumeration = (10, [(0, 1, 0), (0, 2, 1), (0, 3, 2), (0, 4, 3), (1, 2, 4), (1, 3, 5),
      (1, 4, 6), (2, 3, 7), (2, 4, 8), (3, 4, 9)]) ∧
    (∀ i j : Fin 5, i < j →
      (pair_enumeration.2.map fun t => (t.1, t.2.1)).count (i, j) = 1) ∧
    (∀ t ∈ pair_enumeration.2, t.1 < t.2.1 ∧ t.2.2 < INTERACTIONS) ∧
    (∀ k : Fin 10, pair_enumeration.2.get? k.val = some ((pair_at k).1, (pair_at k).2, k.val)) ∧
    (∀ (bodies : Fin 5 → body α) (d0 : Fin INTERACTIONS → vec3 α),
      advance_displacements bodies d0 = some (10, fun k =>
        (bodies (pair_at k).1).position.sub (bodies (pair_at k).2).position)) ∧
    (∀ (dt : α) (d : Fin INTERACTIONS → vec3 α) (m0 : Fin INTERACTIONS → α),
      advance_magnitudes sqrt dt d m0 = some (fun k => magnitude sqrt (d k) dt)) ∧
    (∀ (d : Fin INTERACTIONS → vec3 α) (m : Fin INTERACTIONS → α) (bodies : Fin 5 → body α),
      advance_velocities d m bodies = some (10, (List.finRange 10).foldl
        (fun b k => pair_update (d k) (m k) (pair_at k).1 (pair_at k).2 b) bodies)) ∧
    (∀ (s : nbody_system α) (dt : α), ∃ s', s.advance sqrt dt = some s') :=
  ⟨rfl, by decide, by decide, by decide, by decide, advance_displacements_eq,
    advance_magnitudes_eq sqrt, advance_velocities_eq, fun s dt => ⟨_, advance_eq sqrt s dt⟩⟩

/-- C12: in every state reachable from the constructed system by `advance` calls (any `dt`
values) the five bodies keep their order and their masses: body `i` has the mass of the `i`-th
constant of the table (`SOLAR_MASS` for the star, the table value times `SOLAR_MASS` for each
planet), which is strictly positive; and `advance` never changes any mass. -/
theorem reachable_masses (dts : List ℝ) :
    (∃ s, advance_all Real.sqrt dts (nbody_system.init : nbody_system ℝ) = some s ∧
      ∀ i, (s.bodies i).mass = (initial_bodies i : body ℝ).mass ∧ 0 < (s.bodies i).mass) ∧
    ((initial_bodies 0 : body ℝ).mass = SOLAR_MASS ∧
      (initial_bodies 1 : body ℝ).mass = 9.54791938424326609e-04 * SOLAR_MASS ∧
      (initial_bodies 2 : body ℝ).mass = 2.85885980666130812e-04 * SOLAR_MASS ∧
      (initial_bodies 3 : body ℝ).mass = 4.36624404335156298e-05 * SOLAR_MASS ∧
      (initial_bodies 4 : body ℝ).mass = 5.15138902046611451e-05 * SOLAR_MASS) ∧
    ∀ (s : nbody_system ℝ) (dt : ℝ), ∃ s', s.advance Real.sqrt dt = some s' ∧
      ∀ i, (s'.bodies i).mass = (s.bodies i).mass := by
  refine ⟨?_, ⟨rfl, rfl, rfl, rfl, rfl⟩, fun s dt => ⟨_, advance_eq Real.sqrt s dt, fun _ => rfl⟩⟩
  obtain ⟨s, hs, hP⟩ := advance_all_invariant Real.sqrt
    (fun s => ∀ i, (s.bodies i).mass = (initial_bodies i : body ℝ).mass)
    (fun s dt s' h hs' i => (advance_mass Real.sqrt s s' dt hs' i).trans (h i))
    dts nbody_system.init init_mass
  exact ⟨s, hs, fun i => ⟨hP i, by rw [hP i]; exact initial_mass_pos i⟩⟩

/-- C13: on the constructed system the five positions are pairwise distinct, so every pairwise
displacement has a strictly positive sum of squares; the divisors `sqrt(sum_squares(d))` of
`energy()` and `sum * sqrt(sum)` of `magnitude`, taken on the displacements that `advance`
stores, are not zero, and `advance(dt)` returns a state for every `dt`. -/
theorem init_operations_total :
    (∀ i j, i ≠ j → ((nbody_system.init : nbody_system ℝ).bodies i).position ≠
      ((nbody_system.init : nbody_system ℝ).bodies j).position) ∧
    (∀ i j, i ≠ j → 0 < sum_squares
      (((nbody_system.init : nbody_system ℝ).bodies i).position.sub
        ((nbody_system.init : nbody_system ℝ).bodies j).position)) ∧
    (∀ i j, i < j → Real.sqrt (sum_squares
      (((nbody_system.init : nbody_system ℝ).bodies i).position.sub
        ((nbody_system.init : nbody_system ℝ).bodies j).position)) ≠ 0) ∧
    (∃ k d, advance_displacements (nbody_system.init : nbody_system ℝ).bodies
        (fun _ => vec3.zero) = some (k, d) ∧
      ∀ n, 0 < sum_squares (d n) ∧ sum_squares (d n) * Real.sqrt (sum_squares (d n)) ≠ 0) ∧
    (∀ dt : ℝ, ∃ s', (nbody_system.init : nbody_system ℝ).advance Real.sqrt dt = some s') := by
  have hpos : ∀ i j, i ≠ j → 0 < sum_squares
      (((nbody_system.init : nbody_system ℝ).bodies i).position.sub
        ((nbody_system.init : nbody_system ℝ).bodies j).position) :=
    fun i j h => sum_squares_pos (sub_ne_zero_of_ne (init_position_ne i j h))
  refine ⟨init_position_ne, hpos, fun i j h => (Real.sqrt_pos.mpr (hpos i j h.ne)).ne',
    ⟨10, _, advance_displacements_eq _ _, fun n => ?_⟩, fun dt => ⟨_, advance_eq _ _ dt⟩⟩
  have h := hpos _ _ (pair_at_ne n)
  exact ⟨h, (mul_pos h (Real.sqrt_pos.mpr h)).ne'⟩

/-- C14: in every state reachable from the constructed system by `advance` calls, the total
momentum is the zero vector and the mass-weighted position sum is the one of the constructed
system (over the reals). -/
theorem reachable_centre_of_mass_at_rest (dts : List ℝ) :
    ∃ s, advance_all Real.sqrt dts (nbody_system.init : nbody_system ℝ) = some s ∧
      total_momentum s.bodies = vec3.zero ∧
      mass_weighted_position s.bodies =
        mass_weighted_position (nbody_system.init : nbody_system ℝ).bodies := by
  refine advance_all_invariant Real.sqrt
    (fun s => total_momentum s.bodies = vec3.zero ∧
      mass_weighted_position s.bodies =
        mass_weighted_position (nbody_system.init : nbody_system ℝ).bodies)
    (fun s dt s' h hs' => ?_) dts nbody_system.init ⟨total_momentum_init, rfl⟩
  rw [advance_eq] at hs'
  rw [← Option.some.inj hs']
  have hp := total_momentum_advance Real.sqrt s dt
  have hq := mass_weighted_position_advance Real.sqrt s dt
  rw [hp, h.1] at hq
  refine ⟨hp.trans h.1, ?_⟩
  rw [hq, h.2]
  refine vec3.ext ?_ ?_ ?_ <;> simp only [vec3.add_assign, vec3.mul, vec3.zero, zero_mul, add_zero]

/-- C15: for every permutation `order` of the 10 pair indices, `advance` with its velocity-update
phase processing the pairs in that order, displacements and coefficients being those stored
before the phase, returns the same state as `advance` (over the reals). -/
theorem advance_order_independent (s : nbody_system ℝ) (dt : ℝ) (order : List (Fin 10))
    (h : order.Perm (List.finRange 10)) :
    ∃ s', s.advance Real.sqrt dt = some s' ∧
      advance_in_order Real.sqrt order s dt = some s' :=
  ⟨_, advance_eq Real.sqrt s dt,
    (advance_in_order_eq Real.sqrt order h s dt).trans (advance_eq Real.sqrt s dt)⟩

theorem advance_order_independent_witness :
    ([9, 8, 7, 6, 5, 4, 3, 2, 1, 0] : List (Fin 10)).Perm (List.finRange 10) ∧
    ∃ s', (line_state : nbody_system ℝ).advance Real.sqrt 1 = some s' ∧
      advance_in_order Real.sqrt [9, 8, 7, 6, 5, 4, 3, 2, 1, 0] line_state 1 = some s' :=
  ⟨by decide, advance_order_independent line_state 1 [9, 8, 7, 6, 5, 4, 3, 2, 1, 0] (by decide)⟩

/-- C16: for every state and every `dt`, the total momentum after `advance(dt)` equals the total
momentum before (over the reals). -/
theorem advance_conserves_momentum (s : nbody_system ℝ) (dt : ℝ) :
    ∃ s', s.advance Real.sqrt dt = some s' ∧
      total_momentum s'.bodies = total_momentum s.bodies :=
  ⟨_, advance_eq Real.sqrt s dt, total_momentum_advance Real.sqrt s dt⟩

/-- C17: for every state and every `dt`, the three-phase `advance(dt)` returns the state computed
by the fused single-pass variant `advance_fused`, which takes displacement and coefficient of
each pair from the current positions inside the pair loop. -/
theorem advance_eq_advance_fused {α : Type} [Field α] (sqrt : α → α) (s : nbody_system α)
    (dt : α) : s.advance sqrt dt = some (advance_fused sqrt s dt) :=
  advance_eq_fused sqrt s dt

/-- C18: for every state whose positions are pairwise distinct, `advance(0)` returns the state
unchanged: all positions, velocities and masses are as before (over the reals), every
coefficient `magnitude(d, 0)` being `0`. -/
theorem advance_zero_identity (s : nbody_system ℝ)
    (hdistinct : ∀ i j, i ≠ j → (s.bodies i).position ≠ (s.bodies j).position) :
    s.advance Real.sqrt 0 = some s ∧
      ∀ i j, i ≠ j →
        sum_squares ((s.bodies i).position.sub (s.bodies j).position) ≠ 0 ∧
        magnitude Real.sqrt ((s.bodies i).position.sub (s.bodies j).position) 0 = 0 :=
  ⟨advance_zero Real.sqrt s, fun i j hij =>
    ⟨(sum_squares_pos (sub_ne_zero_of_ne (hdistinct i j hij))).ne', magnitude_zero _ _⟩⟩

theorem advance_zero_identity_witness :
    (∀ i j, i ≠ j → ((line_state : nbody_system ℝ).bodies i).position ≠
      ((line_state : nbody_system ℝ).bodies j).position) ∧
    ((line_state : nbody_system ℝ).advance Real.sqrt 0 = some line_state ∧
      ∀ i j, i ≠ j →
        sum_squares (((line_state : nbody_system ℝ).bodies i).position.sub
          ((line_state : nbody_system ℝ).bodies j).position) ≠ 0 ∧
        magnitude Real.sqrt (((line_state : nbody_system ℝ).bodies i).position.sub
          ((line_state : nbody_system ℝ).bodies j).position) 0 = 0) :=
  have h : ∀ i j, i ≠ j → ((line_state : nbody_system ℝ).bodies i).position ≠
      ((line_state : nbody_system ℝ).bodies j).position := by
    intro i j hij heq
    have hx := congrArg vec3.x heq
    simp only [line_state] at hx
    exact hij (Fin.val_injective (Nat.cast_injective hx))
  ⟨h, advance_zero_identity line_state h⟩

/-- C19: in the constructed system bodies 1 to 4 are the constants `jupiter`, `saturn`,
`uranus`, `neptune`, and body 0 has position `(0, 0, 0)` and mass `SOLAR_MASS`;
`offset_momentum(p)` sets the velocity of its body to `p * (-1 / SOLAR_MASS)` and leaves the
position and the mass of that body unchanged. -/
theorem init_frame {α : Type} [Field α] :
    (nbody_system.init : nbody_system α).bodies 1 = jupiter ∧
    (nbody_system.init : nbody_system α).bodies 2 = saturn ∧
    (nbody_system.init : nbody_system α).bodies 3 = uranus ∧
    (nbody_system.init : nbody_system α).bodies 4 = neptune ∧
    ((nbody_system.init : nbody_system α).bodies 0).position = ⟨0, 0, 0⟩ ∧
    ((nbody_system.init : nbody_system α).bodies 0).mass = SOLAR_MASS ∧
    ∀ (b : body α) (p : vec3 α),
      (b.offset_momentum p).velocity = p.mul (-1 / SOLAR_MASS) ∧
      (b.offset_momentum p).position = b.position ∧
      (b.offset_momentum p).mass = b.mass := by
  refine ⟨init_bodies_succ 1 (by decide), init_bodies_succ 2 (by decide),
    init_bodies_succ 3 (by decide), init_bodies_succ 4 (by decide), ?_, ?_,
    fun b p => ⟨rfl, rfl, rfl⟩⟩
  · rw [init_bodies_zero]; rfl
  · rw [init_bodies_zero]

/-- C20: for every state and every `dt`, the total angular momentum, the sum over the bodies of
`(position_i × velocity_i) * mass_i`, is the same after `advance(dt)` as before (over the
reals). -/
theorem advance_conserves_angular_momentum (s : nbody_system ℝ) (dt : ℝ) :
    ∃ s', s.advance Real.sqrt dt = some s' ∧
      angular_momentum s'.bodies = angular_momentum s.bodies :=
  ⟨_, advance_eq Real.sqrt s dt, angular_momentum_advance Real.sqrt s dt⟩

end NBody
